import Mathlib

/-!
Verification development for the ccomp-uerj-progress backend.

The HTTP route handlers (`src/routes/disciplines.js`, the students router)
are embedded directly as pure Lean functions over explicit store values.
The synchronization engine (crawler, Reconciler, SyncGuard) is not present
in the visible source tree; its operations are modelled from the
specification, each such definition carrying a doc comment that starts
with `Modelled from the spec:`.
-/

namespace CcompProgress

/-- A class offering of a discipline, as stored in the catalog
(`number`, `schedule`, `professor`, `vacancies`, nullable `whatsappGroup`). -/
structure ClassRecord where
  number : Nat
  schedule : String
  professor : String
  vacancies : Nat
  whatsappGroup : Option String
deriving DecidableEq, Repr

/-- A catalog discipline: business key `disciplineId`, `name`, and its
ordered list of `ClassRecord`s. -/
structure DisciplineRecord where
  disciplineId : String
  name : String
  classes : List ClassRecord
deriving DecidableEq, Repr

/-- The persisted catalog, an ordered collection of `DisciplineRecord`s. -/
abbrev Catalog := List DisciplineRecord

/-- Storage lookup `getDisciplineById(id)`: first stored discipline whose
`disciplineId` equals `id`. -/
def getDisciplineById (cat : Catalog) (id : String) : Option DisciplineRecord :=
  cat.find? (fun d => d.disciplineId == id)

/-- Outcome of `GET /disciplines/:id/classes/:classNumber`. -/
inductive ClassLookup where
  | disciplineNotFound
  | classNotFound
  | found (c : ClassRecord)
deriving DecidableEq, Repr

/-- Embedding of the route `GET /disciplines/:id/classes/:classNumber`
(src/routes/disciplines.js lines 87-102): 404 "Discipline not found" when
the discipline is absent, otherwise
`discipline.classes.find(c => String(c.number) === classNumber)`,
404 "Class not found" when no class matches. -/
def classByNumber (cat : Catalog) (id classNumber : String) : ClassLookup :=
  match getDisciplineById cat id with
  | none => ClassLookup.disciplineNotFound
  | some discipline =>
    match discipline.classes.find? (fun c => toString c.number == classNumber) with
    | none => ClassLookup.classNotFound
    | some classInfo => ClassLookup.found classInfo

/-- A stored student record as read by the students router. -/
structure Student where
  studentId : String
  name : String
  lastName : String
  completedDisciplines : List String
  currentDisciplines : List String
deriving DecidableEq, Repr

/-- Per-student status for one discipline, embedded from the students
router (lines 83-92 and 136-143): `completed` when the student's
`completedDisciplines` contains the discipline id, else `in_progress`
when `currentDisciplines` contains it, else `not_taken`. -/
def disciplineStatus (student : Student) (discipline : DisciplineRecord) : String :=
  if student.completedDisciplines.contains discipline.disciplineId then "completed"
  else if student.currentDisciplines.contains discipline.disciplineId then "in_progress"
  else "not_taken"

/-- Embedding of `GET /students/:studentId/disciplines`: every catalog
discipline paired with its status for the student. -/
def disciplinesWithStatus (student : Student) (disciplines : List DisciplineRecord) :
    List (DisciplineRecord × String) :=
  disciplines.map (fun d => (d, disciplineStatus student d))

/-- Process configuration visible to the scrape trigger
(`process.env.UERJ_MATRICULA`, `process.env.UERJ_SENHA`). -/
structure ScrapeEnv where
  uerjMatricula : Option String
  uerjSenha : Option String
deriving DecidableEq, Repr

/-- Caller-supplied content of an HTTP request: route params, headers and
JSON body fields. -/
structure HttpRequest where
  params : List (String × String)
  headers : List (String × String)
  body : List (String × String)
deriving DecidableEq, Repr

/-- An HTTP response as produced by the route handlers. -/
structure HttpResponse where
  status : Nat
  message : String
deriving DecidableEq, Repr

/-- The credential pair handed to `scrapeDisciplines`. -/
structure ScrapeInvocation where
  matricula : Option String
  senha : Option String
deriving DecidableEq, Repr

/-- Embedding of `POST /disciplines/actions/scrape`
(src/routes/disciplines.js lines 113-117): it invokes
`scrapeDisciplines(process.env.UERJ_MATRICULA, process.env.UERJ_SENHA)`
fire-and-forget and answers 202 unconditionally. -/
def scrapeRoute (env : ScrapeEnv) (req : HttpRequest) : ScrapeInvocation × HttpResponse :=
  ({ matricula := env.uerjMatricula, senha := env.uerjSenha },
   { status := 202, message := "Discipline scraping process started." })

/-- Kinds of discipline-level failures of a synchronization run. -/
inductive SyncFailureKind where
  | networkError
  | parseError
  | persistenceError
deriving DecidableEq, Repr

/-- Modelled from the spec: the spawned run executes in the background and
its result (summary or failure) is delivered after the trigger has been
acknowledged; the handler response is that of `scrapeRoute`, computed
without consulting the run's result (the source never awaits
`scrapeDisciplines` and sends 202 unconditionally). -/
def handleScrapeTrigger (env : ScrapeEnv) (req : HttpRequest)
    (runResult : Except SyncFailureKind Nat) : HttpResponse :=
  (scrapeRoute env req).2

/-- Result of `SyncGuard.tryStart()`. -/
inductive TriggerResult where
  | started
  | alreadyRunning
deriving DecidableEq, Repr

/-- SyncGuard state: whether a run is active, plus a counter of crawls
actually started (to observe that no duplicate crawl is launched). -/
structure SyncGuardState where
  active : Bool
  runsStarted : Nat
deriving DecidableEq, Repr

/-- Modelled from the spec: `SyncGuard.tryStart() → Started | AlreadyRunning`;
while a run is active a trigger returns `AlreadyRunning` without queuing and
without starting a crawl; otherwise it marks a run active and starts one. -/
def tryStart (s : SyncGuardState) : TriggerResult × SyncGuardState :=
  if s.active then (TriggerResult.alreadyRunning, s)
  else (TriggerResult.started, { active := true, runsStarted := s.runsStarted + 1 })

/-- Modelled from the spec: SyncGuard is released unconditionally when the
run completes, fails fatally or is cancelled. -/
def release (s : SyncGuardState) : SyncGuardState :=
  { s with active := false }

/-- A student document as created by `POST /students` (the created object
carries exactly `studentId`, `name`, `lastName`, `completedDisciplines`). -/
structure StoredStudent where
  studentId : String
  name : String
  lastName : String
  completedDisciplines : List String
deriving DecidableEq, Repr

/-- JSON body of `POST /students`; absent fields are `none`. -/
structure CreateStudentBody where
  studentId : Option String
  name : Option String
  lastName : Option String
  completedDisciplines : Option (List String)
deriving DecidableEq, Repr

/-- JavaScript truthiness of an optional string field: `undefined`/`null`
and the empty string are falsy. -/
def strPresent : Option String → Bool
  | none => false
  | some s => !(s == "")

/-- Storage lookup `getStudentById(studentId)` over the student store. -/
def getStudentById (store : List StoredStudent) (id : String) : Option StoredStudent :=
  store.find? (fun s => s.studentId == id)

/-- Embedding of `POST /students` (students router lines 187-205):
400 when `studentId`, `name` or `lastName` is falsy; 409 when a student
with the id already exists; otherwise append
`{studentId, name, lastName, completedDisciplines: completedDisciplines || []}`
and answer 201. Returns the response status and the resulting store. -/
def createStudentRoute (store : List StoredStudent) (body : CreateStudentBody) :
    Nat × List StoredStudent :=
  if !(strPresent body.studentId) || !(strPresent body.name) || !(strPresent body.lastName) then
    (400, store)
  else
    let sid := body.studentId.getD ""
    match getStudentById store sid with
    | some _ => (409, store)
    | none =>
      (201, store ++ [{ studentId := sid, name := body.name.getD "",
                        lastName := body.lastName.getD "",
                        completedDisciplines := body.completedDisciplines.getD [] }])

/-- Modelled from the spec: `upsertDiscipline(record)` — idempotent
insert-or-replace keyed by `disciplineId`. -/
def upsertDiscipline (cat : Catalog) (r : DisciplineRecord) : Catalog :=
  if cat.any (fun d => d.disciplineId == r.disciplineId) then
    cat.map (fun d => if d.disciplineId == r.disciplineId then r else d)
  else cat ++ [r]

/-- Modelled from the spec: merge one incoming class against the existing
class list — every field from the portal overwrites the existing one
except `whatsappGroup`, which is carried over from the existing record
with the same `number` when there is one. -/
def mergeClass (existing : List ClassRecord) (c : ClassRecord) : ClassRecord :=
  match existing.find? (fun old => old.number == c.number) with
  | some old => { c with whatsappGroup := old.whatsappGroup }
  | none => c

/-- Modelled from the spec: merge an incoming class list into the existing
one by `number`; a class `number` absent from the new payload is removed
(its entry, and its `whatsappGroup` with it, does not survive). -/
def mergeClasses (existing incoming : List ClassRecord) : List ClassRecord :=
  incoming.map (mergeClass existing)

/-- Modelled from the spec: the discipline produced by a successful
reconcile — portal fields overwrite, class lists are merged by `number`. -/
def mergeDiscipline (existing incoming : DisciplineRecord) : DisciplineRecord :=
  { disciplineId := incoming.disciplineId
    name := incoming.name
    classes := mergeClasses existing.classes incoming.classes }

/-- Modelled from the spec: `reconcile` on a successfully fetched and
parsed `DisciplineRecord` — upsert, merging with the existing record when
one is present. -/
def reconcileOk (cat : Catalog) (incoming : DisciplineRecord) : Catalog :=
  match getDisciplineById cat incoming.disciplineId with
  | some existing => upsertDiscipline cat (mergeDiscipline existing incoming)
  | none => upsertDiscipline cat incoming

instance {ε α : Type} [DecidableEq ε] [DecidableEq α] : DecidableEq (Except ε α)
  | Except.error a, Except.error b =>
    if h : a = b then Decidable.isTrue (by rw [h])
    else Decidable.isFalse (by intro hc; cases hc; exact h rfl)
  | Except.error _, Except.ok _ => Decidable.isFalse (by intro hc; cases hc)
  | Except.ok _, Except.error _ => Decidable.isFalse (by intro hc; cases hc)
  | Except.ok a, Except.ok b =>
    if h : a = b then Decidable.isTrue (by rw [h])
    else Decidable.isFalse (by intro hc; cases hc; exact h rfl)

/-- One discipline's outcome handed to the Reconciler: the discipline id
together with either the parsed record or a discipline-level failure. -/
abbrev RunEntry := String × Except SyncFailureKind DisciplineRecord

/-- A `RunEntry` is well formed when a successful outcome carries the
record of the discipline it is keyed by. -/
def entryWF (e : RunEntry) : Bool :=
  match e.2 with
  | Except.ok r => r.disciplineId == e.1
  | Except.error _ => true

/-- Modelled from the spec: `reconcile(disciplineId, incomingRecordOrFailure)` —
on failure the existing record (if any) is left untouched; on success the
record is upserted with merge semantics. -/
def reconcile (cat : Catalog) (e : RunEntry) : Catalog :=
  match e.2 with
  | Except.error _ => cat
  | Except.ok r => reconcileOk cat r

/-- Modelled from the spec: one run's reconciliation — each discipline's
outcome is applied incrementally, in order of completion. -/
def reconcileRun (cat : Catalog) (es : List RunEntry) : Catalog :=
  es.foldl reconcile cat

/-- Modelled from the spec: the complete-enumeration flag is true only
when the listing step itself succeeded and every discipline reference
from the listing was attempted. -/
def enumerationComplete (listingSucceeded : Bool) (refs attempted : List String) : Bool :=
  listingSucceeded && refs.all (fun r => attempted.contains r)

/-- Modelled from the spec: `finalizeRun(enumerationComplete, disciplineIdsSeen)` —
only when the enumeration was complete, remove every catalog discipline
whose `disciplineId` was not seen during this run. -/
def finalizeRun (complete : Bool) (disciplineIdsSeen : List String) (cat : Catalog) : Catalog :=
  if complete then cat.filter (fun d => disciplineIdsSeen.contains d.disciplineId) else cat

/-- The record a successful reconcile stores under `r.disciplineId`: the
merge with the existing record when one is present, the incoming record
itself otherwise. -/
def mergeTarget (cat : Catalog) (r : DisciplineRecord) : DisciplineRecord :=
  match getDisciplineById cat r.disciplineId with
  | some existing => mergeDiscipline existing r
  | none => r

/-- A successful entry's record has pairwise-distinct class numbers
(the spec's per-discipline uniqueness invariant); trivially true for
failure entries. -/
def entryClassesNodup (e : RunEntry) : Bool :=
  match e.2 with
  | Except.ok r => decide ((r.classes.map ClassRecord.number).Nodup)
  | Except.error _ => true

/-- Catalog used by the C9 witness: one discipline with classes 2 and 12. -/
def exCat9 : Catalog :=
  [{ disciplineId := "IME01", name := "Algebra",
     classes := [{ number := 2, schedule := "mon", professor := "A",
                   vacancies := 30, whatsappGroup := some "linkA" },
                 { number := 12, schedule := "tue", professor := "B",
                   vacancies := 20, whatsappGroup := none }] }]

/-- Example student for the status-overlay witness. -/
def exStudent : Student :=
  { studentId := "20201010101", name := "John", lastName := "Doe",
    completedDisciplines := ["D1"], currentDisciplines := ["D2"] }

/-- Example disciplines for the status-overlay witness. -/
def exDisc1 : DisciplineRecord := { disciplineId := "D1", name := "Calculus I", classes := [] }

def exDisc2 : DisciplineRecord := { disciplineId := "D2", name := "Calculus II", classes := [] }

def exDisc3 : DisciplineRecord := { disciplineId := "D3", name := "Physics I", classes := [] }

/-- Stored class for the C1 witness: class 1 of IME01 carries "linkA". -/
def exClass1 : ClassRecord :=
  { number := 1, schedule := "mon", professor := "A",
    vacancies := 30, whatsappGroup := some "linkA" }

/-- Stored discipline for the C1 witness. -/
def exD1 : DisciplineRecord :=
  { disciplineId := "IME01", name := "Algebra", classes := [exClass1] }

/-- Existing catalog for the C1 witness. -/
def exCat1 : Catalog := [exD1]

/-- Incoming class for the C1 witness: same number 1, no `whatsappGroup`. -/
def exIncClass1 : ClassRecord :=
  { number := 1, schedule := "mon 10am", professor := "B",
    vacancies := 40, whatsappGroup := none }

/-- Incoming snapshot record for the C1 witness. -/
def exIncoming1 : DisciplineRecord :=
  { disciplineId := "IME01", name := "Algebra", classes := [exIncClass1] }

/-- Successful record of the witness run for C3/C5. -/
def exRecA : DisciplineRecord :=
  { disciplineId := "IME01", name := "Algebra",
    classes := [{ number := 1, schedule := "mon", professor := "A",
                  vacancies := 30, whatsappGroup := none }] }

/-- Witness run: IME01 succeeds, IME02 fails to parse. -/
def exRun : List RunEntry :=
  [("IME01", Except.ok exRecA), ("IME02", Except.error SyncFailureKind.parseError)]

/-- Catalog for the C5 witness: IME02 already has a stored record. -/
def exCat5 : Catalog :=
  [{ disciplineId := "IME02", name := "Geometry", classes := [] }]

/-- C6: in the per-student overlay, every listed discipline is reported
`completed` when the student's `completedDisciplines` contains its id (this
check takes precedence), else `in_progress` when `currentDisciplines`
contains it, else `not_taken`. -/
theorem statusOverlay_spec (st : Student) (ds : List DisciplineRecord) :
    ∀ p ∈ disciplinesWithStatus st ds,
      (p.1.disciplineId ∈ st.completedDisciplines → p.2 = "completed")
      ∧ (p.1.disciplineId ∉ st.completedDisciplines →
          p.1.disciplineId ∈ st.currentDisciplines → p.2 = "in_progress")
      ∧ (p.1.disciplineId ∉ st.completedDisciplines →
          p.1.disciplineId ∉ st.currentDisciplines → p.2 = "not_taken") := by
  intro p hp
  obtain ⟨d, hd, rfl⟩ := List.mem_map.mp hp
  refine ⟨fun hc => ?_, fun hc hcur => ?_, fun hc hcur => ?_⟩
  · simp [disciplineStatus, List.contains_iff_exists_mem_beq, hc]
  · simp [disciplineStatus, List.contains_iff_exists_mem_beq, hc, hcur]
  · simp [disciplineStatus, List.contains_iff_exists_mem_beq, hc, hcur]

/-- Witness for C6 at the spec's example: `D1` reports `completed`,
`D2` reports `in_progress`, `D3` reports `not_taken`. -/
theorem statusOverlay_spec_witness :
    disciplineStatus exStudent exDisc1 = "completed"
    ∧ disciplineStatus exStudent exDisc2 = "in_progress"
    ∧ disciplineStatus exStudent exDisc3 = "not_taken" := by
  have h1 := statusOverlay_spec exStudent [exDisc1, exDisc2, exDisc3]
    (exDisc1, disciplineStatus exStudent exDisc1) (by decide)
  have h2 := statusOverlay_spec exStudent [exDisc1, exDisc2, exDisc3]
    (exDisc2, disciplineStatus exStudent exDisc2) (by decide)
  have h3 := statusOverlay_spec exStudent [exDisc1, exDisc2, exDisc3]
    (exDisc3, disciplineStatus exStudent exDisc3) (by decide)
  exact ⟨h1.1 (by decide), h2.2.1 (by decide) (by decide), h3.2.2 (by decide) (by decide)⟩

/-- C7: the scrape trigger's response is computed independently of the
spawned run's result and is always the 202 "accepted" acknowledgment; no
failure of the run reaches the trigger response. -/
theorem scrapeTrigger_outcome_independent :
    ∀ (env : ScrapeEnv) (req : HttpRequest) (r1 r2 : Except SyncFailureKind Nat),
      handleScrapeTrigger env req r1 = handleScrapeTrigger env req r2
      ∧ (handleScrapeTrigger env req r1).status = 202
      ∧ (handleScrapeTrigger env req r1).message = "Discipline scraping process started." :=
  fun _ _ _ _ => ⟨rfl, rfl, rfl⟩

/-- C8: the credential pair handed to the crawl comes from process
configuration only — any two requests, whatever their params, headers or
bodies, produce the same configuration-derived invocation. -/
theorem scrapeCredentials_config_only :
    ∀ (env : ScrapeEnv) (req req' : HttpRequest),
      (scrapeRoute env req).1 = (scrapeRoute env req').1
      ∧ (scrapeRoute env req).1 =
          { matricula := env.uerjMatricula, senha := env.uerjSenha } :=
  fun _ _ _ => ⟨rfl, rfl⟩

/-- C2: when a trigger starts a run, the guard is active; while active,
any further trigger observes `AlreadyRunning`, does not change the guard
state, and in particular starts no second crawl (the started-run counter
is unchanged). -/
theorem tryStart_singleFlight (s : SyncGuardState)
    (h : (tryStart s).1 = TriggerResult.started) :
    ((tryStart s).2).active = true
    ∧ (∀ s', s'.active = true →
        (tryStart s').1 = TriggerResult.alreadyRunning ∧ (tryStart s').2 = s')
    ∧ (tryStart (tryStart s).2).1 = TriggerResult.alreadyRunning
    ∧ ((tryStart (tryStart s).2).2).runsStarted = ((tryStart s).2).runsStarted := by
  by_cases hs : s.active
  · simp [tryStart, hs] at h
  · refine ⟨by simp [tryStart, hs], fun s' hs' => by simp [tryStart, hs'], ?_, ?_⟩ <;>
      simp [tryStart, hs]

/-- Witness for C2: from an idle guard, the first trigger starts and the
second observes `AlreadyRunning` without starting a crawl. -/
theorem tryStart_singleFlight_witness :
    (tryStart (tryStart ⟨false, 0⟩).2).1 = TriggerResult.alreadyRunning
    ∧ ((tryStart (tryStart ⟨false, 0⟩).2).2).runsStarted =
        ((tryStart (⟨false, 0⟩ : SyncGuardState)).2).runsStarted :=
  ⟨(tryStart_singleFlight ⟨false, 0⟩ (by decide)).2.2.1,
   (tryStart_singleFlight ⟨false, 0⟩ (by decide)).2.2.2⟩

/-- C9: the class-by-number lookup answers "Discipline not found" when the
discipline is absent; when it exists, it answers "Class not found" exactly
when no class's decimal rendering equals the raw path segment, and
otherwise returns the first class whose `String(number)` equals the
segment (so a numeric class number matches only its exact decimal form). -/
theorem classByNumber_spec (cat : Catalog) (id classNumber : String) :
    (getDisciplineById cat id = none →
      classByNumber cat id classNumber = ClassLookup.disciplineNotFound)
    ∧ (∀ d, getDisciplineById cat id = some d →
        ((∀ c ∈ d.classes, toString c.number ≠ classNumber) →
          classByNumber cat id classNumber = ClassLookup.classNotFound)
        ∧ (∀ c, classByNumber cat id classNumber = ClassLookup.found c →
            toString c.number = classNumber
            ∧ ∃ l1 l2, d.classes = l1 ++ c :: l2
              ∧ ∀ x ∈ l1, toString x.number ≠ classNumber)) := by
  refine ⟨fun h => by simp [classByNumber, h], fun d hd => ⟨fun hall => ?_, fun c hc => ?_⟩⟩
  · have hnone : d.classes.find? (fun c => toString c.number == classNumber) = none := by
      rw [List.find?_eq_none]
      intro x hx
      simpa using hall x hx
    simp [classByNumber, hd, hnone]
  · simp only [classByNumber, hd] at hc
    cases hfind : d.classes.find? (fun c => toString c.number == classNumber) with
    | none => rw [hfind] at hc; exact absurd hc (by simp)
    | some c' =>
      rw [hfind] at hc
      cases hc
      obtain ⟨hp, l1, l2, hsplit, hprior⟩ := List.find?_eq_some.mp hfind
      refine ⟨by simpa using hp, l1, l2, hsplit, fun x hx => ?_⟩
      have := hprior x hx
      simpa using this

/-- Witness for C9: with classes numbered 2 and 12, the raw segment "02"
matches no class (only the exact decimal form "2" would). -/
theorem classByNumber_spec_witness :
    classByNumber exCat9 "IME01" "02" = ClassLookup.classNotFound :=
  ((classByNumber_spec exCat9 "IME01" "02").2 (exCat9.get ⟨0, by decide⟩) (by decide)).1
    (by decide)

/-- C10 counterexample: with student "s1" already stored, the request
`{studentId:"s1", lastName:"Doe"}` (no `name`) hits the validation guard
first and is answered 400, not 409, even though the student exists; the
store is left unchanged. -/
theorem createStudent_conflict_counterexample :
    (getStudentById [⟨"s1", "Ana", "Lima", []⟩] "s1").isSome = true
    ∧ (createStudentRoute [⟨"s1", "Ana", "Lima", []⟩]
        { studentId := some "s1", name := none, lastName := some "Doe",
          completedDisciplines := none }).1 = 400
    ∧ (createStudentRoute [⟨"s1", "Ana", "Lima", []⟩]
        { studentId := some "s1", name := none, lastName := some "Doe",
          completedDisciplines := none }).1 ≠ 409
    ∧ (createStudentRoute [⟨"s1", "Ana", "Lima", []⟩]
        { studentId := some "s1", name := none, lastName := some "Doe",
          completedDisciplines := none }).2 = [⟨"s1", "Ana", "Lima", []⟩] := by
  decide

/-- C10 (amended): for every request whose `studentId`, `name` and
`lastName` are present and non-empty, a conflicting existing student makes
the route answer 409 with the store unchanged; with no conflict the
student is appended with `completedDisciplines` defaulting to `[]`. -/
theorem createStudent_guarded (store : List StoredStudent) (body : CreateStudentBody)
    (hS : strPresent body.studentId = true) (hN : strPresent body.name = true)
    (hL : strPresent body.lastName = true) :
    (getStudentById store (body.studentId.getD "") ≠ none →
      createStudentRoute store body = (409, store))
    ∧ (getStudentById store (body.studentId.getD "") = none →
      createStudentRoute store body =
        (201, store ++ [{ studentId := body.studentId.getD "",
                          name := body.name.getD "",
                          lastName := body.lastName.getD "",
                          completedDisciplines := body.completedDisciplines.getD [] }])) := by
  constructor <;> intro h
  · cases hl : getStudentById store (body.studentId.getD "") with
    | none => exact absurd hl h
    | some ex => simp [createStudentRoute, hS, hN, hL, hl]
  · simp [createStudentRoute, hS, hN, hL, h]

/-- Witness for C10's amended claim: both the conflict branch (409, store
unchanged) and the creation branch (201, defaulted empty list) at concrete
inputs. -/
theorem createStudent_guarded_witness :
    createStudentRoute [⟨"s1", "Ana", "Lima", []⟩]
      { studentId := some "s1", name := some "John", lastName := some "Doe",
        completedDisciplines := none } = (409, [⟨"s1", "Ana", "Lima", []⟩])
    ∧ createStudentRoute []
      { studentId := some "s2", name := some "John", lastName := some "Doe",
        completedDisciplines := none } = (201, [⟨"s2", "John", "Doe", []⟩]) :=
  ⟨(createStudent_guarded [⟨"s1", "Ana", "Lima", []⟩]
      { studentId := some "s1", name := some "John", lastName := some "Doe",
        completedDisciplines := none } (by decide) (by decide) (by decide)).1 (by decide),
   (createStudent_guarded []
      { studentId := some "s2", name := some "John", lastName := some "Doe",
        completedDisciplines := none } (by decide) (by decide) (by decide)).2 (by decide)⟩

/-- The replace step of an upsert never changes an element's id. -/
theorem upsertApply_disciplineId (m d : DisciplineRecord) :
    ((if d.disciplineId == m.disciplineId then m else d).disciplineId) = d.disciplineId := by
  by_cases h : (d.disciplineId == m.disciplineId) = true
  · rw [if_pos h]
    exact (eq_of_beq h).symm
  · rw [if_neg h]

/-- A defined lookup returns a member whose id matches the key. -/
theorem getDisciplineById_beq {cat : Catalog} {id : String} {d : DisciplineRecord}
    (h : getDisciplineById cat id = some d) : (d.disciplineId == id) = true := by
  unfold getDisciplineById at h
  have hp := List.find?_some h
  simpa using hp

/-- A defined lookup returns a member of the catalog. -/
theorem getDisciplineById_mem {cat : Catalog} {id : String} {d : DisciplineRecord}
    (h : getDisciplineById cat id = some d) : d ∈ cat := by
  unfold getDisciplineById at h
  exact List.mem_of_find?_eq_some h

/-- Id-keyed `any` is the definedness of the id-keyed lookup. -/
theorem any_id_eq_isSome (cat : Catalog) (z : String) :
    cat.any (fun d => d.disciplineId == z) = (getDisciplineById cat z).isSome := by
  cases hfind : getDisciplineById cat z with
  | none =>
    simp only [Option.isSome_none]
    unfold getDisciplineById at hfind
    rw [List.find?_eq_none] at hfind
    exact List.any_eq_false.mpr fun x hx => by simpa using hfind x hx
  | some d =>
    simp only [Option.isSome_some]
    exact List.any_eq_true.mpr ⟨d, getDisciplineById_mem hfind, getDisciplineById_beq hfind⟩

/-- Lookup after an upsert: the upserted id yields the new record, every
other id is unaffected. -/
theorem getDisciplineById_upsert (cat : Catalog) (m : DisciplineRecord) (id : String) :
    getDisciplineById (upsertDiscipline cat m) id =
      if m.disciplineId = id then some m else getDisciplineById cat id := by
  unfold upsertDiscipline
  by_cases hany : cat.any (fun d => d.disciplineId == m.disciplineId) = true
  · rw [if_pos hany]
    have hcomp : getDisciplineById
        (cat.map (fun d => if d.disciplineId == m.disciplineId then m else d)) id =
        (getDisciplineById cat id).map
          (fun d => if d.disciplineId == m.disciplineId then m else d) := by
      unfold getDisciplineById
      rw [List.find?_map]
      have hfun : ((fun d => d.disciplineId == id) ∘
          (fun d => if d.disciplineId == m.disciplineId then m else d)) =
          fun d => d.disciplineId == id := by
        funext d
        simp only [Function.comp]
        rw [upsertApply_disciplineId]
      rw [hfun]
    rw [hcomp]
    by_cases hid : m.disciplineId = id
    · rw [if_pos hid]
      cases hfind : getDisciplineById cat id with
      | none =>
        exfalso
        obtain ⟨d₀, hmem, hp⟩ := List.any_eq_true.mp hany
        unfold getDisciplineById at hfind
        rw [List.find?_eq_none] at hfind
        exact hfind d₀ hmem (by rw [← hid]; exact hp)
      | some d₀ =>
        have hp : (d₀.disciplineId == id) = true := getDisciplineById_beq hfind
        have : (d₀.disciplineId == m.disciplineId) = true := by rw [hid]; exact hp
        simp only [Option.map_some']
        rw [if_pos this]
    · rw [if_neg hid]
      cases hfind : getDisciplineById cat id with
      | none => rfl
      | some d₀ =>
        have hp : (d₀.disciplineId == id) = true := getDisciplineById_beq hfind
        have hne : ¬(d₀.disciplineId == m.disciplineId) = true := by
          rw [beq_iff_eq] at hp ⊢
          rw [hp]
          exact fun he => hid he.symm
        simp only [Option.map_some']
        rw [if_neg hne]
  · rw [if_neg hany]
    unfold getDisciplineById
    rw [List.find?_append]
    by_cases hid : m.disciplineId = id
    · have hnone : cat.find? (fun d => d.disciplineId == id) = none := by
        rw [List.find?_eq_none]
        intro x hx
        rw [Bool.not_eq_true] at hany
        have := List.any_eq_false.mp hany x hx
        rw [← hid]
        simpa using this
      rw [hnone, if_pos hid]
      simp [hid]
    · rw [if_neg hid]
      have hmnone : [m].find? (fun d => d.disciplineId == id) = none := by
        rw [List.find?_eq_none]
        intro x hx
        rw [List.mem_singleton] at hx
        subst hx
        simpa using hid
      rw [hmnone]
      exact Option.or_none

/-- The merged record keeps the incoming id. -/
theorem mergeDiscipline_disciplineId (e r : DisciplineRecord) :
    (mergeDiscipline e r).disciplineId = r.disciplineId := rfl

/-- The stored merge target keeps the incoming id. -/
theorem mergeTarget_disciplineId (cat : Catalog) (r : DisciplineRecord) :
    (mergeTarget cat r).disciplineId = r.disciplineId := by
  unfold mergeTarget
  cases getDisciplineById cat r.disciplineId <;> rfl

/-- A successful reconcile is an upsert of the merge target. -/
theorem reconcileOk_eq_upsert (cat : Catalog) (r : DisciplineRecord) :
    reconcileOk cat r = upsertDiscipline cat (mergeTarget cat r) := by
  unfold reconcileOk mergeTarget
  cases getDisciplineById cat r.disciplineId <;> rfl

/-- Lookup after a successful reconcile: the reconciled id yields the
merge target, every other id is unaffected. -/
theorem getDisciplineById_reconcileOk (cat : Catalog) (r : DisciplineRecord) (id : String) :
    getDisciplineById (reconcileOk cat r) id =
      if r.disciplineId = id then some (mergeTarget cat r) else getDisciplineById cat id := by
  rw [reconcileOk_eq_upsert, getDisciplineById_upsert, mergeTarget_disciplineId]

/-- Under pairwise-distinct class numbers, searching a member's number
finds that member. -/
theorem find?_number_of_mem {l : List ClassRecord} {c : ClassRecord}
    (hnd : (l.map ClassRecord.number).Nodup) (hc : c ∈ l) :
    l.find? (fun x => x.number == c.number) = some c := by
  induction l with
  | nil => cases hc
  | cons a t ih =>
    rw [List.map_cons, List.nodup_cons] at hnd
    cases hc with
    | head => exact List.find?_cons_of_pos _ (by simp)
    | tail _ hct =>
      have hne : ¬((fun x => x.number == c.number) a) = true := by
        simp only [beq_iff_eq]
        intro he
        apply hnd.1
        rw [he]
        exact List.mem_map_of_mem ClassRecord.number hct
      rw [List.find?_cons_of_neg (p := fun x => x.number == c.number) t hne]
      exact ih hnd.2 hct

/-- Class merge keeps the incoming class number. -/
theorem mergeClass_number (e : List ClassRecord) (c : ClassRecord) :
    (mergeClass e c).number = c.number := by
  unfold mergeClass
  cases e.find? (fun old => old.number == c.number) <;> rfl

/-- Class merge when the existing list has a class of the same number. -/
theorem mergeClass_eq_of_find? {e : List ClassRecord} {c old : ClassRecord}
    (h : e.find? (fun x => x.number == c.number) = some old) :
    mergeClass e c = { c with whatsappGroup := old.whatsappGroup } := by
  unfold mergeClass
  rw [h]

/-- Class merge when the existing list has no class of the same number. -/
theorem mergeClass_eq_of_find?_none {e : List ClassRecord} {c : ClassRecord}
    (h : e.find? (fun x => x.number == c.number) = none) :
    mergeClass e c = c := by
  unfold mergeClass
  rw [h]

/-- A class merge only ever rewrites the `whatsappGroup` field. -/
theorem mergeClass_group_stable (e : List ClassRecord) (c : ClassRecord) :
    { c with whatsappGroup := (mergeClass e c).whatsappGroup } = mergeClass e c := by
  unfold mergeClass
  cases e.find? (fun old => old.number == c.number) <;> rfl

/-- Re-merging an already merged class list against the same incoming
list changes nothing (incoming class numbers pairwise distinct). -/
theorem mergeClasses_stable (e i : List ClassRecord)
    (hnd : (i.map ClassRecord.number).Nodup) :
    mergeClasses (mergeClasses e i) i = mergeClasses e i := by
  unfold mergeClasses
  apply List.map_congr_left
  intro c hc
  have hfun : ((fun x => x.number == c.number) ∘ mergeClass e) =
      fun x => x.number == c.number := by
    funext x
    simp only [Function.comp]
    rw [mergeClass_number]
  have hfind : (i.map (mergeClass e)).find? (fun x => x.number == c.number) =
      some (mergeClass e c) := by
    rw [List.find?_map, hfun, find?_number_of_mem hnd hc]
    rfl
  rw [mergeClass_eq_of_find? hfind, mergeClass_group_stable]

/-- Merging a class list with itself changes nothing (class numbers
pairwise distinct). -/
theorem mergeClasses_self (l : List ClassRecord)
    (hnd : (l.map ClassRecord.number).Nodup) :
    mergeClasses l l = l := by
  unfold mergeClasses
  calc l.map (mergeClass l)
      = l.map id := List.map_congr_left fun c hc => by
        rw [mergeClass_eq_of_find? (find?_number_of_mem hnd hc)]
        rfl
    _ = l := l.map_id

/-- Re-merging an already merged discipline against the same incoming
record changes nothing. -/
theorem mergeDiscipline_stable (e r : DisciplineRecord)
    (hnd : (r.classes.map ClassRecord.number).Nodup) :
    mergeDiscipline (mergeDiscipline e r) r = mergeDiscipline e r := by
  unfold mergeDiscipline
  simp only
  rw [mergeClasses_stable _ _ hnd]

/-- Merging a record with itself changes nothing. -/
theorem mergeDiscipline_self (r : DisciplineRecord)
    (hnd : (r.classes.map ClassRecord.number).Nodup) :
    mergeDiscipline r r = r := by
  unfold mergeDiscipline
  rw [mergeClasses_self _ hnd]

/-- `upsertDiscipline` is idempotent. -/
theorem upsertDiscipline_idem (cat : Catalog) (m : DisciplineRecord) :
    upsertDiscipline (upsertDiscipline cat m) m = upsertDiscipline cat m := by
  unfold upsertDiscipline
  by_cases hany : cat.any (fun d => d.disciplineId == m.disciplineId) = true
  · rw [if_pos hany]
    have hany2 : (cat.map (fun d => if d.disciplineId == m.disciplineId then m else d)).any
        (fun d => d.disciplineId == m.disciplineId) = true := by
      rw [List.any_map]
      have hfun : ((fun d => d.disciplineId == m.disciplineId) ∘
          (fun d => if d.disciplineId == m.disciplineId then m else d)) =
          fun d => d.disciplineId == m.disciplineId := by
        funext d
        simp only [Function.comp]
        rw [upsertApply_disciplineId]
      rw [hfun]
      exact hany
    rw [if_pos hany2, List.map_map]
    apply List.map_congr_left
    intro d _
    simp only [Function.comp]
    by_cases h : (d.disciplineId == m.disciplineId) = true
    · rw [if_pos h]
      rw [if_pos (by simp)]
    · rw [if_neg h, if_neg h]
  · rw [if_neg hany]
    have hany2 : ((cat ++ [m]).any (fun d => d.disciplineId == m.disciplineId)) = true := by
      rw [List.any_append]
      simp
    rw [if_pos hany2, List.map_append]
    rw [Bool.not_eq_true] at hany
    have hall := List.any_eq_false.mp hany
    have hcat : cat.map (fun d => if d.disciplineId == m.disciplineId then m else d) = cat := by
      calc cat.map (fun d => if d.disciplineId == m.disciplineId then m else d)
          = cat.map id := List.map_congr_left fun d hd => by
            rw [if_neg (by simpa using hall d hd)]
            rfl
        _ = cat := cat.map_id
    rw [hcat]
    congr 1
    rw [List.map_singleton, if_pos (by simp)]

/-- A successful reconcile is idempotent (incoming class numbers pairwise
distinct). -/
theorem reconcileOk_idem (cat : Catalog) (r : DisciplineRecord)
    (hnd : (r.classes.map ClassRecord.number).Nodup) :
    reconcileOk (reconcileOk cat r) r = reconcileOk cat r := by
  have hmt : mergeTarget (reconcileOk cat r) r = mergeTarget cat r := by
    rw [mergeTarget, getDisciplineById_reconcileOk, if_pos rfl]
    cases hl : getDisciplineById cat r.disciplineId with
    | some e =>
      rw [mergeTarget, hl]
      exact mergeDiscipline_stable e r hnd
    | none =>
      rw [mergeTarget, hl]
      exact mergeDiscipline_self r hnd
  rw [reconcileOk_eq_upsert (reconcileOk cat r) r, hmt,
    reconcileOk_eq_upsert cat r, upsertDiscipline_idem]

/-- The replace step of an upsert does not change which ids occur. -/
theorem any_id_map_upsert (cat : Catalog) (m : DisciplineRecord) (z : String) :
    (cat.map (fun d => if d.disciplineId == m.disciplineId then m else d)).any
      (fun d => d.disciplineId == z) = cat.any (fun d => d.disciplineId == z) := by
  rw [List.any_map]
  have hfun : ((fun d => d.disciplineId == z) ∘
      (fun d => if d.disciplineId == m.disciplineId then m else d)) =
      fun d => d.disciplineId == z := by
    funext d
    simp only [Function.comp]
    rw [upsertApply_disciplineId]
  rw [hfun]

/-- Two upserts of distinct ids commute, provided the first id is already
present in the catalog (so neither order appends it). -/
theorem upsertDiscipline_comm (cat : Catalog) (m₁ m₂ : DisciplineRecord)
    (hne : m₁.disciplineId ≠ m₂.disciplineId)
    (h₁ : cat.any (fun d => d.disciplineId == m₁.disciplineId) = true) :
    upsertDiscipline (upsertDiscipline cat m₂) m₁ =
      upsertDiscipline (upsertDiscipline cat m₁) m₂ := by
  have hm21 : (m₂.disciplineId == m₁.disciplineId) = false := beq_false_of_ne (Ne.symm hne)
  have hm12 : (m₁.disciplineId == m₂.disciplineId) = false := beq_false_of_ne hne
  have e1 : upsertDiscipline cat m₁ =
      cat.map (fun d => if d.disciplineId == m₁.disciplineId then m₁ else d) := by
    unfold upsertDiscipline
    rw [if_pos h₁]
  by_cases h₂ : cat.any (fun d => d.disciplineId == m₂.disciplineId) = true
  · have e2 : upsertDiscipline cat m₂ =
        cat.map (fun d => if d.disciplineId == m₂.disciplineId then m₂ else d) := by
      unfold upsertDiscipline
      rw [if_pos h₂]
    rw [e1, e2]
    unfold upsertDiscipline
    rw [if_pos (by rw [any_id_map_upsert]; exact h₁),
      if_pos (by rw [any_id_map_upsert]; exact h₂), List.map_map, List.map_map]
    apply List.map_congr_left
    intro d _
    simp only [Function.comp]
    by_cases hd2 : (d.disciplineId == m₂.disciplineId) = true
    · have hd1 : (d.disciplineId == m₁.disciplineId) = false := by
        rw [beq_iff_eq] at hd2
        exact beq_false_of_ne (by rw [hd2]; exact Ne.symm hne)
      simp only [hd2, hd1, if_true, if_false, Bool.false_eq_true, hm21]
    · rw [Bool.not_eq_true] at hd2
      by_cases hd1 : (d.disciplineId == m₁.disciplineId) = true
      · simp only [hd2, hd1, if_true, if_false, Bool.false_eq_true, hm12]
      · rw [Bool.not_eq_true] at hd1
        simp only [hd2, hd1, if_false, Bool.false_eq_true]
  · have e2 : upsertDiscipline cat m₂ = cat ++ [m₂] := by
      unfold upsertDiscipline
      rw [if_neg h₂]
    rw [e1, e2]
    unfold upsertDiscipline
    have ha : ((cat ++ [m₂]).any (fun d => d.disciplineId == m₁.disciplineId)) = true := by
      rw [List.any_append, h₁]
      rfl
    have hb : ((cat.map (fun d => if d.disciplineId == m₁.disciplineId then m₁ else d)).any
        (fun d => d.disciplineId == m₂.disciplineId)) = false := by
      rw [any_id_map_upsert]
      rw [Bool.not_eq_true] at h₂
      exact h₂
    rw [if_pos ha, if_neg (by rw [hb]; exact Bool.false_ne_true), List.map_append]
    congr 1
    rw [List.map_singleton, if_neg (by rw [hm21]; exact Bool.false_ne_true)]

/-- Two successful reconciles of distinct ids commute, provided the first
id is already stored. -/
theorem reconcileOk_comm (cat : Catalog) (r₁ r₂ : DisciplineRecord)
    (hne : r₁.disciplineId ≠ r₂.disciplineId)
    (h₁ : (getDisciplineById cat r₁.disciplineId).isSome = true) :
    reconcileOk (reconcileOk cat r₁) r₂ = reconcileOk (reconcileOk cat r₂) r₁ := by
  have hmt₂ : mergeTarget (reconcileOk cat r₁) r₂ = mergeTarget cat r₂ := by
    rw [mergeTarget, getDisciplineById_reconcileOk, if_neg hne, mergeTarget]
  have hmt₁ : mergeTarget (reconcileOk cat r₂) r₁ = mergeTarget cat r₁ := by
    rw [mergeTarget, getDisciplineById_reconcileOk, if_neg (Ne.symm hne), mergeTarget]
  rw [reconcileOk_eq_upsert (reconcileOk cat r₁) r₂, hmt₂,
    reconcileOk_eq_upsert (reconcileOk cat r₂) r₁, hmt₁,
    reconcileOk_eq_upsert cat r₁, reconcileOk_eq_upsert cat r₂]
  have hne' : (mergeTarget cat r₂).disciplineId ≠ (mergeTarget cat r₁).disciplineId := by
    rw [mergeTarget_disciplineId, mergeTarget_disciplineId]
    exact Ne.symm hne
  exact (upsertDiscipline_comm cat (mergeTarget cat r₁) (mergeTarget cat r₂)
    (by rw [mergeTarget_disciplineId, mergeTarget_disciplineId]; exact hne)
    (by rw [mergeTarget_disciplineId, any_id_eq_isSome]; exact h₁)).symm

/-- Reduction of `reconcile` at a successful entry. -/
theorem reconcile_ok_eq (cat : Catalog) (e : RunEntry) (r : DisciplineRecord)
    (he : e.2 = Except.ok r) : reconcile cat e = reconcileOk cat r := by
  unfold reconcile
  rw [he]

/-- Reduction of `reconcile` at a failure entry: the catalog is untouched. -/
theorem reconcile_error_eq (cat : Catalog) (e : RunEntry) (k : SyncFailureKind)
    (he : e.2 = Except.error k) : reconcile cat e = cat := by
  unfold reconcile
  rw [he]

/-- One step of a run's fold. -/
theorem reconcileRun_cons (cat : Catalog) (e : RunEntry) (t : List RunEntry) :
    reconcileRun cat (e :: t) = reconcileRun (reconcile cat e) t := rfl

/-- A run's fold splits over list append. -/
theorem reconcileRun_append (cat : Catalog) (l₁ l₂ : List RunEntry) :
    reconcileRun cat (l₁ ++ l₂) = reconcileRun (reconcileRun cat l₁) l₂ := by
  unfold reconcileRun
  rw [List.foldl_append]

/-- A reconcile step leaves every other id's stored record unchanged. -/
theorem getDisciplineById_reconcile_ne (cat : Catalog) (e : RunEntry) (z : String)
    (hwf : entryWF e = true) (hz : e.1 ≠ z) :
    getDisciplineById (reconcile cat e) z = getDisciplineById cat z := by
  cases he : e.2 with
  | error k => rw [reconcile_error_eq cat e k he]
  | ok r =>
    rw [reconcile_ok_eq cat e r he, getDisciplineById_reconcileOk]
    rw [if_neg]
    intro h
    unfold entryWF at hwf
    rw [he] at hwf
    rw [beq_iff_eq] at hwf
    exact hz (hwf ▸ h)

/-- A reconcile step preserves definedness of every stored id. -/
theorem isSome_reconcile (cat : Catalog) (e : RunEntry) (z : String)
    (h : (getDisciplineById cat z).isSome = true) :
    (getDisciplineById (reconcile cat e) z).isSome = true := by
  cases he : e.2 with
  | error k => rw [reconcile_error_eq cat e k he]; exact h
  | ok r =>
    rw [reconcile_ok_eq cat e r he, getDisciplineById_reconcileOk]
    by_cases hid : r.disciplineId = z
    · rw [if_pos hid]
      rfl
    · rw [if_neg hid]
      exact h

/-- A whole run leaves every id it never mentions unchanged. -/
theorem getDisciplineById_reconcileRun_notMem (cat : Catalog) (es : List RunEntry) (z : String)
    (hwf : ∀ e ∈ es, entryWF e = true) (hz : z ∉ es.map Prod.fst) :
    getDisciplineById (reconcileRun cat es) z = getDisciplineById cat z := by
  induction es generalizing cat with
  | nil => rfl
  | cons e t ih =>
    rw [List.map_cons, List.mem_cons] at hz
    push_neg at hz
    rw [reconcileRun_cons,
      ih (reconcile cat e) (fun x hx => hwf x (List.mem_cons_of_mem e hx)) hz.2,
      getDisciplineById_reconcile_ne cat e z (hwf e (List.mem_cons_self e t)) (Ne.symm hz.1)]

/-- A whole run preserves definedness of every stored id. -/
theorem isSome_reconcileRun (cat : Catalog) (es : List RunEntry) (z : String)
    (h : (getDisciplineById cat z).isSome = true) :
    (getDisciplineById (reconcileRun cat es) z).isSome = true := by
  induction es generalizing cat with
  | nil => exact h
  | cons e t ih =>
    rw [reconcileRun_cons]
    exact ih (reconcile cat e) (isSome_reconcile cat e z h)

/-- A successful reconcile of an id already stored commutes past a run
that never mentions that id. -/
theorem reconcileRun_reconcileOk_comm (A : Catalog) (r : DisciplineRecord) (es : List RunEntry)
    (hpres : (getDisciplineById A r.disciplineId).isSome = true)
    (hwf : ∀ e ∈ es, entryWF e = true)
    (hnot : r.disciplineId ∉ es.map Prod.fst) :
    reconcileRun (reconcileOk A r) es = reconcileOk (reconcileRun A es) r := by
  induction es generalizing A with
  | nil => rfl
  | cons e t ih =>
    rw [List.map_cons, List.mem_cons] at hnot
    push_neg at hnot
    rw [reconcileRun_cons, reconcileRun_cons]
    have hswap : reconcile (reconcileOk A r) e = reconcileOk (reconcile A e) r := by
      cases he : e.2 with
      | error k => rw [reconcile_error_eq _ e k he, reconcile_error_eq A e k he]
      | ok r₂ =>
        rw [reconcile_ok_eq _ e r₂ he, reconcile_ok_eq A e r₂ he]
        have hid2 : r₂.disciplineId = e.1 := by
          have hwfe := hwf e (List.mem_cons_self e t)
          unfold entryWF at hwfe
          rw [he] at hwfe
          exact eq_of_beq hwfe
        exact reconcileOk_comm A r r₂ (by rw [hid2]; exact hnot.1) hpres
    rw [hswap]
    exact ih (reconcile A e) (isSome_reconcile A e _ hpres)
      (fun x hx => hwf x (List.mem_cons_of_mem e hx)) hnot.2

/-- C3: reconciliation is idempotent — applying the identical run a second
time right after the first leaves the catalog exactly as after the first
application (run entries well formed, with each discipline reported once
and pairwise-distinct class numbers, the spec's uniqueness invariants). -/
theorem reconcileRun_idempotent (cat : Catalog) (es : List RunEntry)
    (hwf : ∀ e ∈ es, entryWF e = true)
    (hids : (es.map Prod.fst).Nodup)
    (hnum : ∀ e ∈ es, entryClassesNodup e = true) :
    reconcileRun (reconcileRun cat es) es = reconcileRun cat es := by
  induction es generalizing cat with
  | nil => rfl
  | cons e t ih =>
    rw [List.map_cons, List.nodup_cons] at hids
    rw [reconcileRun_cons, reconcileRun_cons]
    have hstep : reconcile (reconcileRun (reconcile cat e) t) e =
        reconcileRun (reconcile cat e) t := by
      cases he : e.2 with
      | error k => exact reconcile_error_eq _ e k he
      | ok r =>
        rw [reconcile_ok_eq _ e r he]
        have hA : reconcile cat e = reconcileOk cat r := reconcile_ok_eq cat e r he
        have hidr : r.disciplineId = e.1 := by
          have hwfe := hwf e (List.mem_cons_self e t)
          unfold entryWF at hwfe
          rw [he] at hwfe
          exact eq_of_beq hwfe
        have hpres : (getDisciplineById (reconcile cat e) r.disciplineId).isSome = true := by
          rw [hA, getDisciplineById_reconcileOk, if_pos rfl]
          rfl
        have hnotr : r.disciplineId ∉ t.map Prod.fst := by
          rw [hidr]
          exact hids.1
        rw [← reconcileRun_reconcileOk_comm (reconcile cat e) r t hpres
          (fun x hx => hwf x (List.mem_cons_of_mem e hx)) hnotr]
        have hnodup : (r.classes.map ClassRecord.number).Nodup := by
          have hn := hnum e (List.mem_cons_self e t)
          unfold entryClassesNodup at hn
          rw [he] at hn
          exact of_decide_eq_true hn
        rw [hA, reconcileOk_idem cat r hnodup]
    rw [hstep]
    exact ih (reconcile cat e) (fun x hx => hwf x (List.mem_cons_of_mem e hx)) hids.2
      (fun x hx => hnum x (List.mem_cons_of_mem e hx))

/-- Witness for C3: a concrete run (one success, one parse failure)
reconciled twice against the empty catalog equals one application. -/
theorem reconcileRun_idempotent_witness :
    reconcileRun (reconcileRun [] exRun) exRun = reconcileRun [] exRun :=
  reconcileRun_idempotent [] exRun (by decide) (by decide) (by decide)

/-- Each run entry's discipline ends up exactly as its own reconcile step
leaves it, regardless of the other entries of the run. -/
theorem reconcileRun_lookup_of_mem (cat : Catalog) (es : List RunEntry) (e : RunEntry)
    (he : e ∈ es) (hwf : ∀ x ∈ es, entryWF x = true)
    (hids : (es.map Prod.fst).Nodup) :
    getDisciplineById (reconcileRun cat es) e.1 = getDisciplineById (reconcile cat e) e.1 := by
  obtain ⟨l1, l2, rfl⟩ := List.append_of_mem he
  rw [List.map_append, List.map_cons] at hids
  have hnd := List.nodup_append.mp hids
  have hnot1 : e.1 ∉ l1.map Prod.fst := fun hmem =>
    (List.disjoint_left.mp hnd.2.2) hmem (List.mem_cons_self e.1 _)
  have hnot2 : e.1 ∉ l2.map Prod.fst := (List.nodup_cons.mp hnd.2.1).1
  have hwf1 : ∀ x ∈ l1, entryWF x = true := fun x hx =>
    hwf x (List.mem_append_left _ hx)
  rw [reconcileRun_append, reconcileRun_cons,
    getDisciplineById_reconcileRun_notMem _ l2 e.1
      (fun x hx => hwf x (List.mem_append_right _ (List.mem_cons_of_mem e hx))) hnot2]
  cases hee : e.2 with
  | error k =>
    rw [reconcile_error_eq _ e k hee, reconcile_error_eq cat e k hee,
      getDisciplineById_reconcileRun_notMem cat l1 e.1 hwf1 hnot1]
  | ok r =>
    have hidr : r.disciplineId = e.1 := by
      have hwfe := hwf e (List.mem_append_right _ (List.mem_cons_self e l2))
      unfold entryWF at hwfe
      rw [hee] at hwfe
      exact eq_of_beq hwfe
    rw [reconcile_ok_eq _ e r hee, reconcile_ok_eq cat e r hee,
      getDisciplineById_reconcileOk, getDisciplineById_reconcileOk,
      if_pos hidr, if_pos hidr]
    have hmt : mergeTarget (reconcileRun cat l1) r = mergeTarget cat r := by
      rw [mergeTarget, mergeTarget,
        getDisciplineById_reconcileRun_notMem cat l1 r.disciplineId hwf1 (hidr ▸ hnot1)]
    rw [hmt]

/-- C5: a discipline whose fetch or parse failed keeps its prior stored
record after the whole run, the run itself still completes, and every
successful discipline of the same run is reconciled exactly as its own
reconcile step dictates. -/
theorem partialFailure_isolation (cat : Catalog) (es : List RunEntry)
    (idF : String) (kind : SyncFailureKind)
    (hmem : (idF, Except.error kind) ∈ es)
    (hwf : ∀ x ∈ es, entryWF x = true)
    (hids : (es.map Prod.fst).Nodup) :
    getDisciplineById (reconcileRun cat es) idF = getDisciplineById cat idF
    ∧ ∀ idS r, (idS, Except.ok r) ∈ es →
        getDisciplineById (reconcileRun cat es) idS =
          getDisciplineById (reconcileOk cat r) idS := by
  constructor
  · have h := reconcileRun_lookup_of_mem cat es (idF, Except.error kind) hmem hwf hids
    rw [reconcile_error_eq cat (idF, Except.error kind) kind rfl] at h
    exact h
  · intro idS r hr
    have h := reconcileRun_lookup_of_mem cat es (idS, Except.ok r) hr hwf hids
    rw [reconcile_ok_eq cat (idS, Except.ok r) r rfl] at h
    exact h

/-- Witness for C5: in the concrete run where IME02 fails to parse, IME02
keeps its stored record and IME01 is reconciled normally. -/
theorem partialFailure_isolation_witness :
    getDisciplineById (reconcileRun exCat5 exRun) "IME02" = getDisciplineById exCat5 "IME02"
    ∧ getDisciplineById (reconcileRun exCat5 exRun) "IME01" =
        getDisciplineById (reconcileOk exCat5 exRecA) "IME01" :=
  ⟨(partialFailure_isolation exCat5 exRun "IME02" SyncFailureKind.parseError
      (by decide) (by decide) (by decide)).1,
   (partialFailure_isolation exCat5 exRun "IME02" SyncFailureKind.parseError
      (by decide) (by decide) (by decide)).2 "IME01" exRecA (by decide)⟩

/-- C4: a catalog discipline is removed by `finalizeRun` exactly when the
listing step succeeded, every listed reference was attempted, and its id
was not seen in the run; when the enumeration was partial or failed, the
catalog is left entirely untouched. -/
theorem finalizeRun_staleness (cat : Catalog) (listingSucceeded : Bool)
    (refs attempted seen : List String) (d : DisciplineRecord) (hd : d ∈ cat) :
    (d ∉ finalizeRun (enumerationComplete listingSucceeded refs attempted) seen cat
      ↔ (listingSucceeded = true ∧ (∀ ref ∈ refs, ref ∈ attempted)
          ∧ d.disciplineId ∉ seen))
    ∧ (enumerationComplete listingSucceeded refs attempted = false →
        finalizeRun (enumerationComplete listingSucceeded refs attempted) seen cat = cat) := by
  constructor
  · cases hcomp : enumerationComplete listingSucceeded refs attempted with
    | true =>
      unfold enumerationComplete at hcomp
      rw [Bool.and_eq_true] at hcomp
      have hrefs : ∀ ref ∈ refs, ref ∈ attempted := by
        intro ref href
        have := (List.all_eq_true.mp hcomp.2) ref href
        simpa [List.contains_iff_exists_mem_beq] using this
      unfold finalizeRun
      rw [if_pos rfl]
      constructor
      · intro hnot
        refine ⟨hcomp.1, hrefs, fun hseen => hnot ?_⟩
        rw [List.mem_filter]
        exact ⟨hd, by simpa [List.contains_iff_exists_mem_beq] using hseen⟩
      · intro hconj hmem
        rw [List.mem_filter] at hmem
        exact hconj.2.2 (by simpa [List.contains_iff_exists_mem_beq] using hmem.2)
    | false =>
      unfold finalizeRun
      rw [if_neg (by exact Bool.false_ne_true)]
      constructor
      · intro hnot
        exact absurd hd hnot
      · intro hconj
        exfalso
        unfold enumerationComplete at hcomp
        rw [hconj.1, Bool.true_and] at hcomp
        have hall : refs.all (fun ref => attempted.contains ref) = true :=
          List.all_eq_true.mpr fun ref href =>
            List.contains_iff_exists_mem_beq.mpr ⟨ref, hconj.2.1 ref href, by simp⟩
        rw [hall] at hcomp
        exact Bool.noConfusion hcomp
  · intro h
    rw [h]
    rfl

/-- Witness for C4: after a fully successful enumeration that saw only D1,
the stored discipline D3 is removed. -/
theorem finalizeRun_staleness_witness :
    exDisc3 ∉ finalizeRun (enumerationComplete true ["D1", "D3"] ["D1", "D3"])
      ["D1"] [exDisc1, exDisc3] :=
  (finalizeRun_staleness [exDisc1, exDisc3] true ["D1", "D3"] ["D1", "D3"] ["D1"]
    exDisc3 (by decide)).1.mpr ⟨rfl, by decide, by decide⟩

/-- The merged record's class list is the merge of the class lists. -/
theorem mergeDiscipline_classes (e r : DisciplineRecord) :
    (mergeDiscipline e r).classes = mergeClasses e.classes r.classes := rfl

/-- C1: reconciling a snapshot that still reports a stored class's number
(with or without a `whatsappGroup` value) keeps the stored link: every
merged class of that number carries it, and one such class exists whenever
the incoming payload reports the number without a link; the link is dropped
only when the number is absent from the incoming payload, in which case the
whole class entry is gone from the merged record. -/
theorem whatsappGroup_preserved (cat : Catalog) (did : String)
    (d incoming : DisciplineRecord) (c : ClassRecord) (link : String)
    (hlook : getDisciplineById cat did = some d)
    (hnd : (d.classes.map ClassRecord.number).Nodup)
    (hc : c ∈ d.classes)
    (hg : c.whatsappGroup = some link)
    (hid : incoming.disciplineId = did) :
    getDisciplineById (reconcileOk cat incoming) did = some (mergeDiscipline d incoming)
    ∧ (∀ c' ∈ (mergeDiscipline d incoming).classes,
        c'.number = c.number → c'.whatsappGroup = some link)
    ∧ ((∃ ci ∈ incoming.classes, ci.number = c.number ∧ ci.whatsappGroup = none) →
        ∃ c' ∈ (mergeDiscipline d incoming).classes,
          c'.number = c.number ∧ c'.whatsappGroup = some link)
    ∧ ((∀ ci ∈ incoming.classes, ci.number ≠ c.number) →
        ∀ c' ∈ (mergeDiscipline d incoming).classes, c'.number ≠ c.number) := by
  have hmergeci : ∀ ci ∈ incoming.classes, ci.number = c.number →
      mergeClass d.classes ci = { ci with whatsappGroup := some link } := by
    intro ci _ hnum
    have hfind : d.classes.find? (fun x => x.number == ci.number) = some c := by
      rw [hnum]
      exact find?_number_of_mem hnd hc
    rw [mergeClass_eq_of_find? hfind, hg]
  refine ⟨?_, ?_, ?_, ?_⟩
  · rw [getDisciplineById_reconcileOk, hid, if_pos rfl, mergeTarget, hid, hlook]
  · intro c' hc' hnum
    rw [mergeDiscipline_classes] at hc'
    obtain ⟨ci, hci, rfl⟩ := List.mem_map.mp hc'
    rw [mergeClass_number] at hnum
    rw [hmergeci ci hci hnum]
  · rintro ⟨ci, hci, hnum, _⟩
    refine ⟨mergeClass d.classes ci, ?_, ?_, ?_⟩
    · rw [mergeDiscipline_classes]
      exact List.mem_map_of_mem _ hci
    · rw [mergeClass_number]
      exact hnum
    · rw [hmergeci ci hci hnum]
  · intro hall c' hc'
    rw [mergeDiscipline_classes] at hc'
    obtain ⟨ci, hci, rfl⟩ := List.mem_map.mp hc'
    rw [mergeClass_number]
    exact hall ci hci

/-- Witness for C1: merging the incoming snapshot (class 1, no link) with
the stored record keeps "linkA" on class 1. -/
theorem whatsappGroup_preserved_witness :
    ∃ c' ∈ (mergeDiscipline exD1 exIncoming1).classes,
      c'.number = exClass1.number ∧ c'.whatsappGroup = some "linkA" :=
  (whatsappGroup_preserved exCat1 "IME01" exD1 exIncoming1 exClass1 "linkA"
    (by decide) (by decide) (by decide) (by decide) rfl).2.2.1
    ⟨exIncClass1, by decide, by decide, by decide⟩

end CcompProgress
